import Mathlib

set_option maxRecDepth 100000

/- Batteries marks the `Rat` arithmetic operations `@[irreducible]`; make
them semireducible again so that concrete runs of the embedded calculator
reduce by `decide`/`rfl`. -/
attribute [local semireducible] Rat.add Rat.mul Rat.sub Rat.inv Rat.ofScientific

deriving instance DecidableEq for Except

/-!
Shallow embedding of the rust-calculator expression engine and input state
machine (`src/calculator.rs`, `src/input.rs`, `src/display.rs`, `src/ui.rs`).

Modelling conventions:
* Rust `f64` values are modelled as exact rationals (`ℚ`).  All numeric
  values the claims touch are exactly representable and all operations on
  them are exact, so the idealisation is faithful there; in the rational
  model no value is ever non-finite, and the `is_finite` half of the
  source's range checks is vacuously true.
* Rust `String` is modelled as Lean `String`.  Where the source indexes by
  bytes (`str::len`, slicing, `truncate`) the embedding computes with UTF-8
  byte counts (`Char.utf8Size`); a byte index that falls inside a character
  makes the source panic, which the embedding models with `Option`.
* Loops that do not recurse structurally are given explicit fuel equal to
  an upper bound on their iteration count (the input length), so every
  definition is a computable structural recursion.
-/

/-- Tokens used in expression parsing for the shunting-yard algorithm
(`enum Token` in `calculator.rs`). -/
inductive Token where
  | number (q : ℚ)
  | plus
  | minus
  | unaryMinus
  | multiply
  | divide
  | leftParen
  | rightParen
deriving DecidableEq, Repr

/-- Operator precedence and associativity (`struct OperatorInfo`). -/
structure OperatorInfo where
  precedence : Nat
  left_associative : Bool
deriving DecidableEq, Repr

/-- `Token::operator_info` from `calculator.rs`. -/
def Token.operator_info : Token → Option OperatorInfo
  | .plus | .minus => some { precedence := 1, left_associative := true }
  | .multiply | .divide => some { precedence := 2, left_associative := true }
  | .unaryMinus => some { precedence := 3, left_associative := false }
  | _ => none

/-- `Token::is_left_paren`. -/
def Token.is_left_paren : Token → Bool
  | .leftParen => true
  | _ => false

/-- `enum CalculatorError` from `calculator.rs`. -/
inductive CalculatorError where
  | divisionByZero
  | invalidNumber (s : String)
  | invalidExpression (s : String)
  | inputTooLong
  | invalidCharacters (s : String)
  | numberOutOfRange (s : String)
deriving DecidableEq, Repr

/-- The `Display` impl for `CalculatorError`. -/
def CalculatorError.toDisplay : CalculatorError → String
  | .divisionByZero => "Division by zero"
  | .invalidNumber s => "Invalid number: " ++ s
  | .invalidExpression s => "Invalid expression: " ++ s
  | .inputTooLong => "Input too long"
  | .invalidCharacters s => "Invalid characters: " ++ s
  | .numberOutOfRange s => "Number out of range: " ++ s

/-- Numeric value of a list of decimal digit characters (most significant first). -/
def digitsToNat (ds : List Char) : Nat :=
  ds.foldl (fun acc c => acc * 10 + (c.toNat - '0'.toNat)) 0

/-- `10 ^ n` as a rational. -/
def pow10 (n : Nat) : ℚ := (10 : ℚ) ^ n

/-- Rust `str::parse::<f64>` (rounded to the exact rational it denotes),
restricted to the finite-number grammar: an optional sign, a mantissa
`d⁺ | d⁺.d* | d*.d⁺`, and an optional exponent `(e|E) sign? d⁺`.  Strings
outside this grammar (including the empty string) fail, as in Rust. -/
def parseFloat (s : String) : Option ℚ :=
  let cs := s.toList
  let signAndRest : ℚ × List Char :=
    match cs with
    | '+' :: r => (1, r)
    | '-' :: r => (-1, r)
    | _ => (1, cs)
  let sgn := signAndRest.1
  let afterSign := signAndRest.2
  let intPart := afterSign.takeWhile Char.isDigit
  let afterInt := afterSign.dropWhile Char.isDigit
  let fracAndRest : List Char × List Char × Bool :=
    match afterInt with
    | '.' :: r => (r.takeWhile Char.isDigit, r.dropWhile Char.isDigit, true)
    | _ => ([], afterInt, false)
  let fracPart := fracAndRest.1
  let afterFrac := fracAndRest.2.1
  if intPart.isEmpty ∧ fracPart.isEmpty then none
  else
    let mant : ℚ := sgn * ((digitsToNat (intPart ++ fracPart) : ℚ) / pow10 fracPart.length)
    match afterFrac with
    | [] => some mant
    | e :: r =>
      if e = 'e' ∨ e = 'E' then
        let expSignAndRest : Bool × List Char :=
          match r with
          | '+' :: r2 => (false, r2)
          | '-' :: r2 => (true, r2)
          | _ => (false, r)
        let expDigits := expSignAndRest.2.takeWhile Char.isDigit
        let afterExp := expSignAndRest.2.dropWhile Char.isDigit
        if expDigits.isEmpty ∨ ¬ afterExp.isEmpty then none
        else if expSignAndRest.1 then some (mant / pow10 (digitsToNat expDigits))
        else some (mant * pow10 (digitsToNat expDigits))
      else none

/-- Decimal digits of the fractional part `rem / den`, emitted until the
remainder vanishes; `fuel` bounds the number of digits (Rust's `f64`
display never needs more than the fuel supplied by callers). -/
def fracDigits : Nat → Nat → Nat → List Char
  | 0, _, _ => []
  | _ + 1, 0, _ => []
  | fuel + 1, rem, den =>
    let r10 := rem * 10
    Char.ofNat ('0'.toNat + r10 / den) :: fracDigits fuel (r10 % den) den

/-- Rust `f64::to_string` (the `Display` impl), modelled on exact rationals:
a minus sign for negatives, the integer part in decimal, and, when the
fractional part is nonzero, a `.` followed by its decimal digits.  Rust
prints the shortest decimal that round-trips; for the terminating decimals
produced by the calculator this is the exact expansion computed here. -/
def ratToString (q : ℚ) : String :=
  let n := q.num.natAbs
  let den := q.den
  let intPart := n / den
  let rem := n % den
  (if q < 0 then "-" else "") ++ Nat.repr intPart ++
    (if rem = 0 then "" else "." ++ String.mk (fracDigits 1100 rem den))

/-- Rust `str::trim`, modelled structurally: whitespace stripped from both
ends of the character list. -/
def rustTrim (s : String) : String :=
  String.mk (((s.toList.dropWhile Char.isWhitespace).reverse.dropWhile Char.isWhitespace).reverse)

/-- Rust `str::starts_with(&str)`, modelled structurally on characters. -/
def strStarts (s pre : String) : Bool :=
  pre.toList.isPrefixOf s.toList

/-- Rust `str::ends_with(&str)`, modelled structurally on characters. -/
def strEnds (s suf : String) : Bool :=
  suf.toList.reverse.isPrefixOf s.toList.reverse

/-- Rust `str::contains(char)`, modelled structurally on characters. -/
def strHasChar (s : String) (ch : Char) : Bool :=
  s.toList.contains ch

namespace Calculator

/-- `Calculator::MAX_INPUT_LENGTH`. -/
def MAX_INPUT_LENGTH : Nat := 1000

/-- The numeric range bound `1e100` used by the source's range checks. -/
def BOUND : ℚ := (10 : ℚ) ^ (100 : Nat)

/-- `Calculator::safe_parse_number`: parse with bounds checking.  (In the
rational model a parsed value is always finite, so only the magnitude
check of `!num.is_finite() || num.abs() > 1e100` can fire.) -/
def safe_parse_number (s : String) : Except CalculatorError ℚ :=
  match parseFloat s with
  | none => .error (.invalidNumber s)
  | some num => if |num| > BOUND then .error (.numberOutOfRange s) else .ok num

/-- The character set accepted by `Calculator::validate_input`. -/
def allowedChar (c : Char) : Bool :=
  c.isDigit ∨ c ∈ ['+', '-', 'x', 'X', '*', '/', '÷', '.', 'e', 'E', '(', ')', ' ']

/-- `Calculator::validate_input`: the length guard (Rust `str::len`, i.e.
UTF-8 bytes) followed by the character-set check, collecting every
offending character in encounter order. -/
def validate_input (input : String) : Except CalculatorError Unit :=
  if input.utf8ByteSize > MAX_INPUT_LENGTH then .error .inputTooLong
  else
    let invalid := input.toList.filter (fun c => ¬ allowedChar c)
    if invalid.isEmpty then .ok () else .error (.invalidCharacters (String.mk invalid))

/-- The inner number-scanning loop of `Calculator::tokenize`: consumes
digits, at most one `.`, at most one `e`/`E` (with an optional immediately
following sign), accumulating the literal's text. -/
def scanNumber : Nat → List Char → String → Bool → Bool → Except String (String × List Char)
  | 0, cs, acc, _, _ => .ok (acc, cs)
  | _ + 1, [], acc, _, _ => .ok (acc, [])
  | fuel + 1, c :: rest, acc, hasDot, hasE =>
    if c.isDigit then scanNumber fuel rest (acc.push c) hasDot hasE
    else if c = '.' then
      if hasDot then
        .error ("Invalid number format: multiple decimal points in '" ++ acc ++ ".'")
      else scanNumber fuel rest (acc.push '.') true hasE
    else if c = 'e' ∨ c = 'E' then
      if hasE then
        .error ("Invalid number format: multiple 'e' in '" ++ acc ++ "e'")
      else
        match rest with
        | next :: rest2 =>
          if next = '+' ∨ next = '-' then
            scanNumber fuel rest2 ((acc.push c).push next) hasDot true
          else scanNumber fuel (next :: rest2) (acc.push c) hasDot true
        | [] => .ok (acc.push c, [])
    else .ok (acc, c :: rest)

/-- One pass of `Calculator::tokenize`, with `expect_operand` and
`prev_was_binary_op` exactly as in the source.  `fuel` bounds the number
of loop iterations; each iteration consumes at least one character, so
`cs.length` fuel always suffices. -/
def tokenizeAux : Nat → List Char → Bool → Bool → List Token → Except String (List Token)
  | 0, _, _, _, acc => .ok acc
  | _ + 1, [], _, _, acc => .ok acc
  | fuel + 1, c :: rest, expectOperand, prevWasBinaryOp, acc =>
    if c.isDigit ∨ c = '.' then
      match scanNumber (rest.length + 1) (c :: rest) "" false false with
      | .error e => .error e
      | .ok (numStr, rest2) =>
        match safe_parse_number numStr with
        | .ok num => tokenizeAux fuel rest2 false false (acc ++ [Token.number num])
        | .error e => .error e.toDisplay
    else if c = '+' then
      if expectOperand then .error "Unexpected '+' operator"
      else if prevWasBinaryOp then .error "Consecutive operators"
      else tokenizeAux fuel rest true true (acc ++ [Token.plus])
    else if c = '-' then
      if expectOperand ∧ ¬ prevWasBinaryOp then
        tokenizeAux fuel rest true false (acc ++ [Token.unaryMinus])
      else if expectOperand ∧ prevWasBinaryOp then .error "Consecutive operators"
      else if prevWasBinaryOp then .error "Consecutive operators"
      else tokenizeAux fuel rest true true (acc ++ [Token.minus])
    else if c = 'x' ∨ c = 'X' ∨ c = '*' then
      if expectOperand then .error "Unexpected multiplication operator"
      else if prevWasBinaryOp then .error "Consecutive operators"
      else tokenizeAux fuel rest true true (acc ++ [Token.multiply])
    else if c = '/' ∨ c = '÷' then
      if expectOperand then .error "Unexpected division operator"
      else if prevWasBinaryOp then .error "Consecutive operators"
      else tokenizeAux fuel rest true true (acc ++ [Token.divide])
    else if c = '(' then
      tokenizeAux fuel rest true false (acc ++ [Token.leftParen])
    else if c = ')' then
      if expectOperand then .error "Unexpected ')' - missing operand"
      else tokenizeAux fuel rest false false (acc ++ [Token.rightParen])
    else if c = ' ' then
      tokenizeAux fuel rest expectOperand prevWasBinaryOp acc
    else .error ("Invalid character: " ++ String.mk [c])

/-- `Calculator::tokenize`. -/
def tokenize (input : String) : Except String (List Token) :=
  tokenizeAux (input.toList.length + 1) input.toList true false []

/-- The inner `while let Some(top) = operator_stack.last()` loop of
`Calculator::shunting_yard` for an incoming binary operator: returns the
operators popped to the output (in pop order) and the remaining stack
(head = top of stack). -/
def popForBinary (cur : Token) : List Token → List Token × List Token
  | [] => ([], [])
  | top :: rest =>
    if top.is_left_paren then ([], top :: rest)
    else
      match cur.operator_info, top.operator_info with
      | some curInfo, some topInfo =>
        if topInfo.precedence > curInfo.precedence ∨
            (topInfo.precedence = curInfo.precedence ∧ curInfo.left_associative) then
          let pr := popForBinary cur rest
          (top :: pr.1, pr.2)
        else ([], top :: rest)
      | _, _ => ([], top :: rest)

/-- The `Token::RightParen` arm of `shunting_yard`: pop to the output until
a left parenthesis is found and discarded; `none` models the
mismatched-parentheses failure. -/
def popUntilLeftParen : List Token → Option (List Token × List Token)
  | [] => none
  | top :: rest =>
    if top.is_left_paren then some ([], rest)
    else
      match popUntilLeftParen rest with
      | none => none
      | some (emitted, remaining) => some (top :: emitted, remaining)

/-- The final drain of the operator stack in `shunting_yard`: any remaining
left parenthesis is a mismatched-parentheses error. -/
def drainStack : List Token → Except String (List Token)
  | [] => .ok []
  | top :: rest =>
    if top.is_left_paren then .error "Mismatched parentheses"
    else
      match drainStack rest with
      | .error e => .error e
      | .ok ts => .ok (top :: ts)

/-- The token loop of `Calculator::shunting_yard`; the operator stack is a
list with its head as the top. -/
def syLoop : List Token → List Token → List Token → Except String (List Token)
  | [], output, stack =>
    match drainStack stack with
    | .error e => .error e
    | .ok ts => .ok (output ++ ts)
  | t :: ts, output, stack =>
    match t with
    | .number _ => syLoop ts (output ++ [t]) stack
    | .unaryMinus => syLoop ts output (t :: stack)
    | .leftParen => syLoop ts output (t :: stack)
    | .rightParen =>
      match popUntilLeftParen stack with
      | none => .error "Mismatched parentheses"
      | some (emitted, remaining) => syLoop ts (output ++ emitted) remaining
    | _ =>
      let pr := popForBinary t stack
      syLoop ts (output ++ pr.1) (t :: pr.2)

/-- `Calculator::shunting_yard`. -/
def shunting_yard (tokens : List Token) : Except String (List Token) :=
  syLoop tokens [] []

/-- The token loop of `Calculator::evaluate_postfix`, acting on the value
stack (head = top; Rust pops `b` then `a`). -/
def postfixEvalSteps : List Token → List ℚ → Except String (List ℚ)
  | [], stack => .ok stack
  | t :: ts, stack =>
    match t with
    | .number num => postfixEvalSteps ts (num :: stack)
    | .unaryMinus =>
      match stack with
      | a :: rest => postfixEvalSteps ts (-a :: rest)
      | [] => .error "Invalid expression: missing operand"
    | .plus =>
      match stack with
      | b :: a :: rest => postfixEvalSteps ts ((a + b) :: rest)
      | _ => .error "Invalid expression: missing operand"
    | .minus =>
      match stack with
      | b :: a :: rest => postfixEvalSteps ts ((a - b) :: rest)
      | _ => .error "Invalid expression: missing operand"
    | .multiply =>
      match stack with
      | b :: a :: rest => postfixEvalSteps ts ((a * b) :: rest)
      | _ => .error "Invalid expression: missing operand"
    | .divide =>
      match stack with
      | b :: a :: rest =>
        if b = 0 then .error (CalculatorError.divisionByZero.toDisplay)
        else postfixEvalSteps ts ((a / b) :: rest)
      | _ => .error "Invalid expression: missing operand"
    | .leftParen => .error "Unexpected token in postfix evaluation: LeftParen"
    | .rightParen => .error "Unexpected token in postfix evaluation: RightParen"

/-- `Calculator::evaluate_postfix`: run the value-stack loop, require
exactly one remaining value, and bounds-check the final result. -/
def postfixEval (tokens : List Token) : Except String ℚ :=
  match postfixEvalSteps tokens [] with
  | .error e => .error e
  | .ok stack =>
    match stack with
    | [result] =>
      if |result| > BOUND then
        .error ((CalculatorError.numberOutOfRange (ratToString result)).toDisplay)
      else .ok result
    | _ => .error "Invalid expression: too many operands"

end Calculator

/-- Left-pad a numeral with zeros to `width` digits. -/
def padZeros (width : Nat) (n : Nat) : String :=
  let ds := Nat.repr n
  String.mk (List.replicate (width - ds.length) '0') ++ ds

/-- Decimal exponent of a nonzero rational: the unique `e` with
`10 ^ e ≤ |q| < 10 ^ (e + 1)`. -/
def decExp (q : ℚ) : ℤ :=
  if |q| ≥ 1 then (Nat.log 10 (Int.toNat ⌊|q|⌋) : ℤ)
  else -(Nat.clog 10 ((q.den + q.num.natAbs - 1) / q.num.natAbs) : ℤ)

/-- `|q| / 10 ^ e` for an integer `e`. -/
def scaleByExp (q : ℚ) (e : ℤ) : ℚ :=
  if e ≥ 0 then |q| / pow10 e.toNat else |q| * pow10 (-e).toNat

/-- Rust `format!("{:.Pe}", v)` on `f64`, modelled on exact rationals:
scientific notation with `p` fractional digits of the mantissa (rounded)
and a bare decimal exponent, e.g. `1.5000e7`, `2.5e-1`. -/
def formatSci (p : Nat) (q : ℚ) : String :=
  if q = 0 then "0." ++ String.mk (List.replicate p '0') ++ "e0"
  else
    let e := decExp q
    let md := round (scaleByExp q e * pow10 p)
    let carried : ℤ × ℤ := if md ≥ (10 : ℤ) ^ (p + 1) then (md / 10, e + 1) else (md, e)
    let m := carried.1.toNat
    (if q < 0 then "-" else "") ++ Nat.repr (m / 10 ^ p) ++ "." ++
      padZeros p (m % 10 ^ p) ++ "e" ++ Int.repr carried.2

/-- Rust `format!("{:.8}", v)` on `f64`, modelled on exact rationals:
fixed-point with eight fractional digits, rounded. -/
def formatFixed8 (q : ℚ) : String :=
  let m := (round (|q| * pow10 8)).toNat
  (if q < 0 then "-" else "") ++ Nat.repr (m / 10 ^ 8) ++ "." ++ padZeros 8 (m % 10 ^ 8)

/-- `formatted.trim_end_matches('0').trim_end_matches('.')` from
`handle_equals_input`. -/
def trimTrailing (s : String) : String :=
  String.mk (((s.toList.reverse.dropWhile (· = '0')).dropWhile (· = '.')).reverse)

/-- Represents a basic calculator (`struct Calculator`). -/
structure Calculator where
  expression : String
  display : String
  new_input : Bool
deriving DecidableEq, Repr

/-- Mathematical operations supported by the calculator (`enum Operation`). -/
inductive Operation where
  | add
  | subtract
  | multiply
  | divide
deriving DecidableEq, Repr

namespace Calculator

/-- `Calculator::new`. -/
def new : Calculator := { expression := "0", display := "0", new_input := false }

/-- The operator/parenthesis characters used by `evaluate`'s single-number
fast path. -/
def evalOpChars : List Char := ['+', '-', 'x', 'X', '*', '/', '÷', '(', ')']

/-- The separating-operator characters used by the input state machine. -/
def sepOpChars : List Char := ['+', '-', 'x', '÷']

/-- `Calculator::evaluate`.  The Rust method takes `&self` and never reads
or writes any field; the embedding keeps the (unused) receiver. -/
def evaluate (_c : Calculator) (expr : String) : Except String ℚ :=
  match validate_input expr with
  | .error e => .error e.toDisplay
  | .ok _ =>
    let trimmed := rustTrim expr
    if trimmed.isEmpty ∨ trimmed = "0" then .ok 0
    else if ¬ trimmed.toList.any (· ∈ evalOpChars) then
      match safe_parse_number trimmed with
      | .ok num => .ok num
      | .error e => .error e.toDisplay
    else
      match tokenize trimmed with
      | .error e => .error e
      | .ok tokens =>
        match shunting_yard tokens with
        | .error e => .error e
        | .ok pf => postfixEval pf

/-- State-passing form of the call `self.evaluate(expr)`: the method holds
only a shared borrow of `self` and its body contains no writes to any
field, so the post-call state is the pre-call state. -/
def evaluateCall (c : Calculator) (expr : String) : Calculator × Except String ℚ :=
  (c, evaluate c expr)

/-- Whether a character list starts with a digit or an exponent sign
(the lookahead after `e` in `format_large_numbers`). -/
def headIsDigitOrSign : List Char → Bool
  | x :: _ => x.isDigit ∨ x = '+' ∨ x = '-'
  | [] => false

/-- Whether a character list starts with a digit (the lookahead after `-`
in `format_large_numbers`). -/
def headIsDigit : List Char → Bool
  | x :: _ => x.isDigit
  | [] => false

/-- The inner scan of `format_large_numbers`: characters continuing a
numeric substring (digits, `.`, or `e` followed by a digit or sign). -/
def flnScan : List Char → List Char × List Char
  | [] => ([], [])
  | nc :: r =>
    if nc.isDigit ∨ nc = '.' ∨ (nc = 'e' ∧ headIsDigitOrSign r) then
      let pr := flnScan r
      (nc :: pr.1, pr.2)
    else ([], nc :: r)

/-- The loop of `Calculator::format_large_numbers`; fuel bounds the
iteration count (each step consumes at least one character). -/
def formatLargeAux : Nat → List Char → String → String
  | 0, _, acc => acc
  | _ + 1, [], acc => acc
  | fuel + 1, c :: rest, acc =>
    if c.isDigit ∨ c = '.' ∨ (c = '-' ∧ headIsDigit rest) then
      let pr := flnScan rest
      let numStr := String.mk (c :: pr.1)
      let piece :=
        match parseFloat numStr with
        | some v =>
          if |v| ≥ (10 : ℚ) ^ (9 : Nat) ∨ (|v| < 1 ∧ |v| > 0) ∨
              (numStr.length > 10 ∧ ¬ strHasChar numStr '.' ∧ ¬ strHasChar numStr 'e') then
            formatSci 1 v
          else numStr
        | none => numStr
      formatLargeAux fuel pr.2 (acc ++ piece)
    else formatLargeAux fuel rest (acc.push c)

/-- `Calculator::format_large_numbers`. -/
def format_large_numbers (expr : String) : String :=
  formatLargeAux (expr.toList.length + 1) expr.toList ""

/-- The collection loop in `add_parentheses_to_negative_operands`: the
characters absorbed into a parenthesized negative operand. -/
def apnCollect : List Char → List Char × List Char
  | [] => ([], [])
  | nc :: r =>
    if nc.isDigit ∨ nc = '.' ∨ nc = 'e' ∨ nc = '+' ∨ nc = '-' then
      let pr := apnCollect r
      (nc :: pr.1, pr.2)
    else ([], nc :: r)

/-- The loop of `Calculator::add_parentheses_to_negative_operands`. -/
def apnAux : Nat → List Char → String → String
  | 0, _, acc => acc
  | _ + 1, [], acc => acc
  | fuel + 1, c :: rest, acc =>
    if c ∈ sepOpChars then
      match rest with
      | '-' :: r2 =>
        let pr := apnCollect r2
        apnAux fuel pr.2 (acc ++ String.mk (c :: '(' :: '-' :: pr.1) ++ ")")
      | _ => apnAux fuel rest (acc.push c)
    else apnAux fuel rest (acc.push c)

/-- `Calculator::add_parentheses_to_negative_operands`. -/
def add_parentheses_to_negative_operands (expr : String) : String :=
  apnAux (expr.toList.length + 1) expr.toList ""

/-- `Calculator::display_string`: the display text derived from the
expression buffer. -/
def display_string (c : Calculator) : String :=
  add_parentheses_to_negative_operands (format_large_numbers c.expression)

/-- `Calculator::handle_number_input` (`input.rs`); the digit is a `u8`
rendered with its decimal numeral. -/
def handle_number_input (c : Calculator) (digit : Nat) : Calculator :=
  let ds := Nat.repr digit
  if c.display = "Error" ∨ strStarts c.display "Invalid" ∨
      strStarts c.display "Division" ∨ strStarts c.display "Number out of range" then
    { expression := ds, display := ds, new_input := false }
  else if c.new_input ∧ ¬ c.expression.toList.any (· ∈ sepOpChars) then
    { expression := ds, display := ds, new_input := false }
  else if c.new_input then
    let c1 : Calculator := { c with expression := c.expression ++ ds }
    { c1 with display := display_string c1, new_input := false }
  else if c.display = "0" then
    { c with expression := ds, display := ds }
  else
    { c with expression := c.expression ++ ds, display := c.display ++ ds }

/-- `Calculator::handle_operation_input`. -/
def handle_operation_input (c : Calculator) (operation : Operation) : Calculator :=
  if c.display = "Error" then c
  else
    let opChar : String :=
      match operation with
      | .add => "+"
      | .subtract => "-"
      | .multiply => "x"
      | .divide => "÷"
    let e1 :=
      match c.expression.toList.getLast? with
      | some lastChar => if lastChar ∈ sepOpChars then c.expression.dropRight 1 else c.expression
      | none => c.expression
    let c1 : Calculator := { c with expression := e1 ++ opChar }
    { c1 with display := display_string c1, new_input := true }

/-- `Calculator::handle_equals_input`. -/
def handle_equals_input (c : Calculator) : Calculator :=
  if c.display = "Error" then c
  else
    match evaluate c c.expression with
    | .ok result =>
      let disp :=
        if |result| ≥ (10 : ℚ) ^ (6 : Nat) ∨ (|result| < 1 / (10 : ℚ) ^ (4 : Nat) ∧ result ≠ 0) then
          formatSci 4 result
        else trimTrailing (formatFixed8 result)
      { expression := ratToString result, display := disp, new_input := true }
    | .error err => { c with expression := "0", display := err }

/-- `Calculator::handle_decimal_input`. -/
def handle_decimal_input (c : Calculator) : Calculator :=
  if c.display = "Error" then
    { expression := "0.", display := "0.", new_input := false }
  else if c.new_input ∧ ¬ c.expression.toList.any (· ∈ sepOpChars) then
    { expression := "0.", display := "0.", new_input := false }
  else if c.new_input then
    let c1 : Calculator := { c with expression := c.expression ++ "0." }
    { c1 with display := display_string c1, new_input := false }
  else if c.display = "0" then
    { c with expression := "0.", display := "0." }
  else if ¬ strHasChar c.display '.' then
    { c with expression := c.expression.push '.', display := c.display.push '.' }
  else c

/-- `Calculator::handle_backspace_input`.  Rust's `expression.len()` is the
UTF-8 byte length; `pop` removes the last character. -/
def handle_backspace_input (c : Calculator) : Calculator :=
  if c.display = "Error" then
    { expression := "0", display := "0", new_input := false }
  else if c.expression.utf8ByteSize > 1 then
    match c.expression.toList.getLast? with
    | some lastChar =>
      let c1 : Calculator := { c with expression := c.expression.dropRight 1 }
      if lastChar ∈ sepOpChars then
        { c1 with display := display_string c1, new_input := true }
      else
        { c1 with display := display_string c1,
                  new_input := ¬ (c1.expression.isEmpty ∨ c1.expression = "0") }
    | none => c
  else if c.expression = "0" then c
  else { expression := "0", display := "0", new_input := false }

/-- `Calculator::handle_percentage_input`.  Rust splices after the last
space character found by `rfind(' ')` (a byte index; truncating just past
a 1-byte space is always on a character boundary). -/
def handle_percentage_input (c : Calculator) : Calculator :=
  match parseFloat c.display with
  | some value =>
    let percentage := value / 100
    let pstr := ratToString percentage
    let newExpr :=
      if c.expression.toList.contains ' ' then
        String.mk ((c.expression.toList.reverse.dropWhile (· ≠ ' ')).reverse) ++ pstr
      else pstr
    { c with expression := newExpr, display := pstr }
  | none => c

/-- `Calculator::find_last_operator_position`: scan from the end at
top-level parenthesis depth, skipping a `-` that is a sign; the returned
index is an index into the `Vec<char>` (a character index). -/
def findLastOpAux : List Char → Nat → ℤ → Option Nat
  | [], _, _ => none
  | ch :: rest, i, depth =>
    if ch = ')' then findLastOpAux rest (i - 1) (depth + 1)
    else if ch = '(' then findLastOpAux rest (i - 1) (depth - 1)
    else if depth = 0 ∧ ch ∈ sepOpChars then
      let prevIsOp : Bool :=
        match rest with
        | prev :: _ => decide (prev ∈ sepOpChars)
        | [] => false
      if ch = '-' ∧ (i = 0 ∨ prevIsOp) then findLastOpAux rest (i - 1) depth else some i
    else findLastOpAux rest (i - 1) depth

/-- `Calculator::find_last_operator_position`. -/
def find_last_operator_position (expr : String) : Option Nat :=
  findLastOpAux expr.toList.reverse (expr.toList.length - 1) 0

/-- Split a character list at a UTF-8 byte index: `none` when the index
falls inside a character (where Rust string slicing panics) or past the
end. -/
def byteSplitAt (k : Nat) (cs : List Char) : Option (List Char × List Char) :=
  if k = 0 then some ([], cs)
  else
    match cs with
    | [] => none
    | c :: rest =>
      if c.utf8Size ≤ k then
        match byteSplitAt (k - c.utf8Size) rest with
        | none => none
        | some (pre, post) => some (c :: pre, post)
      else none

/-- The operand-pattern match in `handle_sign_toggle_input`, on the text
after the last operator. -/
def signToggleNumValue (s : String) : Option ℚ :=
  if (parseFloat s).isSome then parseFloat s
  else if strStarts s "(-" ∧ strEnds s ")" then
    (parseFloat (String.mk ((s.toList.drop 2).dropLast))).map (fun v => -v)
  else if strStarts s "-" ∧ s.utf8ByteSize > 3 ∧
      strStarts (String.mk (s.toList.drop 1)) "(-" ∧ strEnds s ")" then
    parseFloat (String.mk ((s.toList.drop 3).dropLast))
  else none

/-- `Calculator::handle_sign_toggle_input`.  Returns `none` where the Rust
code panics: it slices the expression at byte index `last_op_pos + 1`,
but `last_op_pos` is a character index, so the slice can fall inside a
multi-byte character such as `÷`. -/
def handle_sign_toggle_input (c : Calculator) : Option Calculator :=
  let hasOperators :=
    if c.expression.toList.any (· ∈ ['+', 'x', '÷']) then true
    else if c.expression.toList.contains '-' ∧
        (find_last_operator_position c.expression).isSome then true
    else false
  if hasOperators then
    match find_last_operator_position c.expression with
    | some lastOpPos =>
      match byteSplitAt (lastOpPos + 1) c.expression.toList with
      | none => none
      | some (pre, post) =>
        let currentPart := String.mk post
        match signToggleNumValue currentPart with
        | some numValue =>
          let tail :=
            if numValue > 0 then "(-" ++ ratToString numValue ++ ")"
            else ratToString |numValue|
          let c1 : Calculator := { c with expression := String.mk pre ++ tail }
          some { c1 with display := display_string c1, new_input := false }
        | none => some c
    | none => some c
  else
    let parsed : Option ℚ :=
      if strStarts c.display "(-" ∧ strEnds c.display ")" then
        parseFloat (String.mk ((c.display.toList.drop 1).dropLast))
      else parseFloat c.display
    match parsed with
    | some displayValue =>
      if displayValue > 0 then
        some { c with expression := "-" ++ ratToString displayValue,
                      display := "(-" ++ ratToString displayValue ++ ")" }
      else
        some { c with expression := ratToString |displayValue|,
                      display := ratToString |displayValue| }
    | none => some c

/-- `Calculator::handle_clear_input`. -/
def handle_clear_input (_c : Calculator) : Calculator :=
  { expression := "0", display := "0", new_input := false }

end Calculator

/-- Inbound UI events (`enum UIMessage` in `ui.rs`). -/
inductive UIMessage where
  | numberPressed (digit : Nat)
  | decimalPressed
  | operationPressed (operation : Operation)
  | equalsPressed
  | clearPressed
  | backspacePressed
  | percentagePressed
  | signTogglePressed
deriving DecidableEq, Repr

/-- Scroll hint returned by `process_message` (`enum MessageResult`). -/
inductive MessageResult where
  | noScroll
  | scrollToEnd
deriving DecidableEq, Repr

/-- GUI state (`struct CalculatorUIState`). -/
structure CalculatorUIState where
  calculator : Calculator
  previous_display_len : Nat
deriving DecidableEq, Repr

namespace CalculatorUIState

/-- `CalculatorUIState::new`. -/
def new : CalculatorUIState := { calculator := Calculator.new, previous_display_len := 1 }

/-- The handler dispatched for a message in `process_message`; `none`
models a handler panic (possible only for sign toggle). -/
def dispatch (c : Calculator) : UIMessage → Option Calculator
  | .numberPressed digit => some (Calculator.handle_number_input c digit)
  | .decimalPressed => some (Calculator.handle_decimal_input c)
  | .operationPressed operation => some (Calculator.handle_operation_input c operation)
  | .equalsPressed => some (Calculator.handle_equals_input c)
  | .clearPressed => some (Calculator.handle_clear_input c)
  | .backspacePressed => some (Calculator.handle_backspace_input c)
  | .percentagePressed => some (Calculator.handle_percentage_input c)
  | .signTogglePressed => Calculator.handle_sign_toggle_input c

/-- `CalculatorUIState::process_message`: run the handler and compare the
expression's byte length (Rust `String::len`) before and after. -/
def process_message (st : CalculatorUIState) (message : UIMessage) :
    Option (CalculatorUIState × MessageResult) :=
  let oldLen := st.calculator.expression.utf8ByteSize
  match dispatch st.calculator message with
  | none => none
  | some c =>
    let newLen := c.expression.utf8ByteSize
    some ({ st with calculator := c },
      if newLen > oldLen then .scrollToEnd else .noScroll)

/-- `CalculatorUIState::should_scroll`. -/
def should_scroll (_st : CalculatorUIState) (oldLen newLen : Nat) : Bool :=
  newLen > oldLen

end CalculatorUIState

/-! ## Parenthesis-free operator chains (claim C1)

A parenthesis-free expression mixing the four binary operators is a first
operand followed by a list of (operator, operand) pairs.  `specChainEval`
is the reference semantics taken from the spec's own words: `×`/`÷` are
applied to a running term as soon as they are read (binding tighter),
while `+`/`-` fold the finished term into a running sum, both
left-to-right. -/

/-- Rank-1 operators (`+`, `-`). -/
inductive LowOp where
  | add
  | sub
deriving DecidableEq, Repr

/-- Rank-2 operators (`×`, `÷`). -/
inductive HighOp where
  | mul
  | div
deriving DecidableEq, Repr

/-- Token of a rank-1 operator. -/
def lowTok : LowOp → Token
  | .add => .plus
  | .sub => .minus

/-- Token of a rank-2 operator. -/
def highTok : HighOp → Token
  | .mul => .multiply
  | .div => .divide

/-- Token list of the tail of an operator chain. -/
def restChainTokens : List ((LowOp ⊕ HighOp) × ℚ) → List Token
  | [] => []
  | (.inl l, n) :: r => lowTok l :: Token.number n :: restChainTokens r
  | (.inr h, n) :: r => highTok h :: Token.number n :: restChainTokens r

/-- Infix token list of a parenthesis-free operator chain. -/
def chainTokens (q : ℚ) (rest : List ((LowOp ⊕ HighOp) × ℚ)) : List Token :=
  Token.number q :: restChainTokens rest

/-- Fold a finished term into the running sum with a rank-1 operator. -/
def applyLow : ℚ → LowOp → ℚ → ℚ
  | sum, .add, term => sum + term
  | sum, .sub, term => sum - term

/-- Reference evaluation of an operator chain, written from the spec's
precedence sentence: multiplication and division are applied to the
current term immediately (left-to-right), addition and subtraction fold
the term into the sum (left-to-right), and division by zero fails. -/
def specChainEval : ℚ → LowOp → ℚ → List ((LowOp ⊕ HighOp) × ℚ) → Except String ℚ
  | sum, lop, term, [] => .ok (applyLow sum lop term)
  | sum, lop, term, (.inl l, n) :: r => specChainEval (applyLow sum lop term) l n r
  | sum, lop, term, (.inr .mul, n) :: r => specChainEval sum lop (term * n) r
  | sum, lop, term, (.inr .div, n) :: r =>
    if n = 0 then .error "Division by zero" else specChainEval sum lop (term / n) r

/-- Reference result of a whole chain, with the evaluator's final range
check. -/
def specEvalChain (q : ℚ) (rest : List ((LowOp ⊕ HighOp) × ℚ)) : Except String ℚ :=
  match specChainEval 0 .add q rest with
  | .error e => .error e
  | .ok r =>
    if |r| > Calculator.BOUND then
      .error ((CalculatorError.numberOutOfRange (ratToString r)).toDisplay)
    else .ok r

/-- Zero or one pending operator rendered as stack tokens. -/
def optT {α : Type} (f : α → Token) : Option α → List Token
  | none => []
  | some x => [f x]

/-- The postfix output that `shunting_yard` produces for the tail of a
chain, given the pending rank-1 and rank-2 operators on its stack. -/
def syAux : List ((LowOp ⊕ HighOp) × ℚ) → Option LowOp → Option HighOp → List Token
  | [], low, high => optT highTok high ++ optT lowTok low
  | (.inl l, n) :: r, low, high =>
    optT highTok high ++ optT lowTok low ++ [Token.number n] ++ syAux r (some l) none
  | (.inr h, n) :: r, low, high =>
    optT highTok high ++ [Token.number n] ++ syAux r low (some h)

theorem lowTok_add : lowTok .add = Token.plus := rfl

theorem lowTok_sub : lowTok .sub = Token.minus := rfl

theorem highTok_mul : highTok .mul = Token.multiply := rfl

theorem highTok_div : highTok .div = Token.divide := rfl

theorem opInfo_plus :
    Token.plus.operator_info = some { precedence := 1, left_associative := true } := rfl

theorem opInfo_minus :
    Token.minus.operator_info = some { precedence := 1, left_associative := true } := rfl

theorem opInfo_multiply :
    Token.multiply.operator_info = some { precedence := 2, left_associative := true } := rfl

theorem opInfo_divide :
    Token.divide.operator_info = some { precedence := 2, left_associative := true } := rfl

theorem lowTok_operator_info (l : LowOp) :
    (lowTok l).operator_info = some { precedence := 1, left_associative := true } := by
  cases l <;> rfl

theorem highTok_operator_info (h : HighOp) :
    (highTok h).operator_info = some { precedence := 2, left_associative := true } := by
  cases h <;> rfl

theorem lowTok_is_left_paren (l : LowOp) : (lowTok l).is_left_paren = false := by
  cases l <;> rfl

theorem highTok_is_left_paren (h : HighOp) : (highTok h).is_left_paren = false := by
  cases h <;> rfl

/-- During a parenthesis-free chain, the shunting-yard loop's stack always
consists of an optional rank-2 operator above an optional rank-1
operator, and its output is described by `syAux`. -/
theorem syLoop_chain (rest : List ((LowOp ⊕ HighOp) × ℚ)) :
    ∀ (low : Option LowOp) (high : Option HighOp) (out : List Token),
      Calculator.syLoop (restChainTokens rest) out (optT highTok high ++ optT lowTok low) =
        .ok (out ++ syAux rest low high) := by
  induction rest with
  | nil =>
    intro low high out
    rcases low with _ | l <;> rcases high with _ | h <;>
      simp [restChainTokens, Calculator.syLoop, Calculator.drainStack, optT, syAux,
        lowTok_is_left_paren, highTok_is_left_paren]
  | cons p r ih =>
    intro low high out
    have ihAdd : ∀ out2, Calculator.syLoop (restChainTokens r) out2 [Token.plus] =
        .ok (out2 ++ syAux r (some .add) none) := by
      intro out2
      simpa [optT, lowTok] using ih (some .add) none out2
    have ihSub : ∀ out2, Calculator.syLoop (restChainTokens r) out2 [Token.minus] =
        .ok (out2 ++ syAux r (some .sub) none) := by
      intro out2
      simpa [optT, lowTok] using ih (some .sub) none out2
    have ihMulN : ∀ out2, Calculator.syLoop (restChainTokens r) out2 [Token.multiply] =
        .ok (out2 ++ syAux r none (some .mul)) := by
      intro out2
      simpa [optT, highTok] using ih none (some .mul) out2
    have ihMulS : ∀ (l2 : LowOp) out2,
        Calculator.syLoop (restChainTokens r) out2 [Token.multiply, lowTok l2] =
          .ok (out2 ++ syAux r (some l2) (some .mul)) := by
      intro l2 out2
      simpa [optT, highTok] using ih (some l2) (some .mul) out2
    have ihDivN : ∀ out2, Calculator.syLoop (restChainTokens r) out2 [Token.divide] =
        .ok (out2 ++ syAux r none (some .div)) := by
      intro out2
      simpa [optT, highTok] using ih none (some .div) out2
    have ihDivS : ∀ (l2 : LowOp) out2,
        Calculator.syLoop (restChainTokens r) out2 [Token.divide, lowTok l2] =
          .ok (out2 ++ syAux r (some l2) (some .div)) := by
      intro l2 out2
      simpa [optT, highTok] using ih (some l2) (some .div) out2
    rcases p with ⟨op, n⟩
    rcases op with l | h
    · cases l <;> rcases low with _ | l' <;> rcases high with _ | h' <;>
        simp [restChainTokens, Calculator.syLoop, Calculator.popForBinary, optT, syAux,
          lowTok_is_left_paren, highTok_is_left_paren, lowTok_operator_info,
          highTok_operator_info, lowTok_add, lowTok_sub, highTok_mul, highTok_div,
          opInfo_plus, opInfo_minus, opInfo_multiply, opInfo_divide,
          ihAdd, ihSub, List.append_assoc]
    · cases h <;> rcases low with _ | l' <;> rcases high with _ | h' <;>
        simp [restChainTokens, Calculator.syLoop, Calculator.popForBinary, optT, syAux,
          lowTok_is_left_paren, highTok_is_left_paren, lowTok_operator_info,
          highTok_operator_info, lowTok_add, lowTok_sub, highTok_mul, highTok_div,
          opInfo_plus, opInfo_minus, opInfo_multiply, opInfo_divide,
          ihMulN, ihMulS, ihDivN, ihDivS, List.append_assoc]

/-- `shunting_yard` on a parenthesis-free chain succeeds and produces the
postfix form described by `syAux`. -/
theorem shunting_yard_chain (q : ℚ) (rest : List ((LowOp ⊕ HighOp) × ℚ)) :
    Calculator.shunting_yard (chainTokens q rest) =
      .ok (Token.number q :: syAux rest none none) := by
  have h := syLoop_chain rest none none [Token.number q]
  simpa [Calculator.shunting_yard, chainTokens, Calculator.syLoop, optT] using h

/-- Zero or one pending operand slots on the value stack. -/
def optV {α : Type} : Option α → ℚ → List ℚ
  | none, _ => []
  | some _, v => [v]

/-- Apply a pending rank-2 operator to the term below and the current top
of stack; division by zero fails as in the postfix evaluator. -/
def applyHighE : Option HighOp → ℚ → ℚ → Except String ℚ
  | none, _, curr => .ok curr
  | some .mul, term, curr => .ok (term * curr)
  | some .div, term, curr =>
    if curr = 0 then .error "Division by zero" else .ok (term / curr)

/-- The running sum corresponding to an optional pending rank-1 operator. -/
def lowSum : Option LowOp → ℚ → ℚ
  | none, _ => 0
  | some _, sumv => sumv

/-- The pending rank-1 operator (an absent one acts as `+` on sum `0`). -/
def lowOpOf : Option LowOp → LowOp
  | none => .add
  | some l => l

/-- Running the value-stack loop over the postfix form of a chain tail
computes exactly the reference semantics `specChainEval`, for any pending
operators and any untouched values `base` deeper in the stack. -/
theorem postfixEvalSteps_chain (rest : List ((LowOp ⊕ HighOp) × ℚ)) :
    ∀ (low : Option LowOp) (high : Option HighOp) (sumv termv curr : ℚ) (base : List ℚ),
      Calculator.postfixEvalSteps (syAux rest low high)
          (curr :: (optV high termv ++ optV low sumv ++ base)) =
        match applyHighE high termv curr with
        | .error e => .error e
        | .ok t =>
          match specChainEval (lowSum low sumv) (lowOpOf low) t rest with
          | .error e => .error e
          | .ok r => .ok (r :: base) := by
  induction rest with
  | nil =>
    intro low high sumv termv curr base
    rcases low with _ | l' <;> (try cases l') <;> rcases high with _ | h' <;> (try cases h') <;>
      simp [syAux, optV, optT, Calculator.postfixEvalSteps, applyHighE, applyLow,
        lowSum, lowOpOf, specChainEval, lowTok_add, lowTok_sub, highTok_mul, highTok_div,
        CalculatorError.toDisplay]
    all_goals split_ifs <;> simp [Calculator.postfixEvalSteps]
  | cons p r ih =>
    intro low high sumv termv curr base
    have ihL : ∀ (l : LowOp) (sum2 curr2 : ℚ) (base2 : List ℚ),
        Calculator.postfixEvalSteps (syAux r (some l) none) (curr2 :: sum2 :: base2) =
          match specChainEval sum2 l curr2 r with
          | .error e => .error e
          | .ok v => .ok (v :: base2) := by
      intro l sum2 curr2 base2
      simpa [optV, applyHighE, lowSum, lowOpOf] using ih (some l) none sum2 0 curr2 base2
    have ihHN : ∀ (h : HighOp) (term2 curr2 : ℚ) (base2 : List ℚ),
        Calculator.postfixEvalSteps (syAux r none (some h)) (curr2 :: term2 :: base2) =
          match applyHighE (some h) term2 curr2 with
          | .error e => .error e
          | .ok t =>
            match specChainEval 0 .add t r with
            | .error e => .error e
            | .ok v => .ok (v :: base2) := by
      intro h term2 curr2 base2
      simpa [optV, lowSum, lowOpOf] using ih none (some h) 0 term2 curr2 base2
    have ihHS : ∀ (h : HighOp) (l : LowOp) (sum2 term2 curr2 : ℚ) (base2 : List ℚ),
        Calculator.postfixEvalSteps (syAux r (some l) (some h))
            (curr2 :: term2 :: sum2 :: base2) =
          match applyHighE (some h) term2 curr2 with
          | .error e => .error e
          | .ok t =>
            match specChainEval sum2 l t r with
            | .error e => .error e
            | .ok v => .ok (v :: base2) := by
      intro h l sum2 term2 curr2 base2
      simpa [optV, lowSum, lowOpOf] using ih (some l) (some h) sum2 term2 curr2 base2
    rcases p with ⟨op, n⟩
    rcases op with l | h
    · rcases low with _ | l' <;> (try cases l') <;> rcases high with _ | h' <;> (try cases h') <;>
        simp [syAux, optV, optT, Calculator.postfixEvalSteps, applyHighE, applyLow,
          lowSum, lowOpOf, specChainEval, lowTok_add, lowTok_sub, highTok_mul, highTok_div,
          CalculatorError.toDisplay, ihL]
      all_goals split_ifs <;> simp [Calculator.postfixEvalSteps, ihL]
    · cases h <;> rcases low with _ | l' <;> (try cases l') <;>
        rcases high with _ | h' <;> (try cases h') <;>
        simp [syAux, optV, optT, Calculator.postfixEvalSteps, applyHighE, applyLow,
          lowSum, lowOpOf, specChainEval, lowTok_add, lowTok_sub, highTok_mul, highTok_div,
          CalculatorError.toDisplay, ihHN, ihHS]
      all_goals split_ifs <;> simp [Calculator.postfixEvalSteps, ihHN, ihHS]

/-- The full postfix evaluator on the postfix form of a chain equals the
reference chain semantics (including the final range check). -/
theorem postfixEval_chain (q : ℚ) (rest : List ((LowOp ⊕ HighOp) × ℚ)) :
    Calculator.postfixEval (Token.number q :: syAux rest none none) = specEvalChain q rest := by
  have h := postfixEvalSteps_chain rest none none 0 0 q []
  simp [optV, applyHighE, lowSum, lowOpOf] at h
  rcases hs : specChainEval 0 .add q rest with e | v <;>
    simp [hs] at h <;>
    simp [Calculator.postfixEval, Calculator.postfixEvalSteps, h, specEvalChain, hs]

/-- Claim C1: for every parenthesis-free expression mixing the four
operators, the evaluation pipeline applies multiplication and division
before addition and subtraction, with operators of equal rank associating
left-to-right: running `shunting_yard` and then the postfix evaluator on
any operator chain agrees with the reference left-to-right
precedence-respecting semantics `specEvalChain`; in particular
`evaluate("2+3x4") = 14`, `evaluate("10-2x3") = 4`, and
`evaluate("8x2/4") = 4`. -/
theorem claim_C1 :
    (∀ (q : ℚ) (rest : List ((LowOp ⊕ HighOp) × ℚ)),
        (Calculator.shunting_yard (chainTokens q rest)).bind Calculator.postfixEval =
          specEvalChain q rest)
    ∧ Calculator.evaluate Calculator.new "2+3x4" = .ok 14
    ∧ Calculator.evaluate Calculator.new "10-2x3" = .ok 4
    ∧ Calculator.evaluate Calculator.new "8x2/4" = .ok 4 := by
  refine ⟨fun q rest => ?_, by decide, by decide, by decide⟩
  rw [shunting_yard_chain]
  simpa [Except.bind] using postfixEval_chain q rest

/-- Claim C2 counterexample: `evaluate("2--3")` does not succeed with `5`;
the tokenizer rejects the second `-` (which follows a binary operator)
with the consecutive-operators error. -/
theorem claim_C2_counterexample :
    Calculator.evaluate Calculator.new "2--3" = .error "Consecutive operators"
    ∧ Calculator.evaluate Calculator.new "2--3" ≠ .ok (5 : ℚ) :=
  ⟨by decide, by decide⟩

/-- Claim C2 (amended): `evaluate("5++3")` and `evaluate("2+-3")` both
return an error, and `evaluate("2--3")` is rejected as well: after a
binary operator a `-` hits the `expect_operand && prev_was_binary_op`
branch of the tokenizer and fails with "Consecutive operators". -/
theorem claim_C2_amended :
    Calculator.evaluate Calculator.new "5++3" = .error "Unexpected '+' operator"
    ∧ Calculator.evaluate Calculator.new "2+-3" = .error "Consecutive operators"
    ∧ Calculator.evaluate Calculator.new "2--3" = .error "Consecutive operators" :=
  ⟨by decide, by decide, by decide⟩

/-- A number accepted by `safe_parse_number` is within the `1e100` bound. -/
theorem safe_parse_number_ok_bound (s : String) (q : ℚ)
    (h : Calculator.safe_parse_number s = .ok q) : |q| ≤ Calculator.BOUND := by
  unfold Calculator.safe_parse_number at h
  rcases hp : parseFloat s with _ | num
  · rw [hp] at h
    simp at h
  · rw [hp] at h
    dsimp only at h
    by_cases hb : |num| > Calculator.BOUND
    · rw [if_pos hb] at h
      simp at h
    · rw [if_neg hb] at h
      simp only [Except.ok.injEq] at h
      subst h
      exact le_of_not_lt hb

/-- A result accepted by the postfix evaluator is within the `1e100`
bound (the final range check). -/
theorem postfixEval_ok_bound (ts : List Token) (v : ℚ)
    (h : Calculator.postfixEval ts = .ok v) : |v| ≤ Calculator.BOUND := by
  unfold Calculator.postfixEval at h
  split at h
  · simp at h
  · split at h
    · rename_i result heq
      by_cases hb : |result| > Calculator.BOUND
      · rw [if_pos hb] at h
        simp at h
      · rw [if_neg hb] at h
        simp only [Except.ok.injEq] at h
        subst h
        exact le_of_not_lt hb
    · simp at h

/-- A result accepted by `evaluate` is within the `1e100` bound. -/
theorem evaluate_ok_bound (c : Calculator) (s : String) (v : ℚ)
    (h : Calculator.evaluate c s = .ok v) : |v| ≤ Calculator.BOUND := by
  unfold Calculator.evaluate at h
  split at h
  · simp at h
  · dsimp only at h
    split at h
    · simp only [Except.ok.injEq] at h
      rw [← h]
      rw [abs_zero]
      unfold Calculator.BOUND
      positivity
    · split at h
      · rcases hp : Calculator.safe_parse_number (rustTrim s) with e | num <;> rw [hp] at h
        · simp at h
        · simp only [Except.ok.injEq] at h
          subst h
          exact safe_parse_number_ok_bound _ _ hp
      · split at h
        · simp at h
        · split at h
          · simp at h
          · exact postfixEval_ok_bound _ _ h

/-- Claim C3 counterexample: in `evaluate("1e100x4/4")` the intermediate
product `1e100 × 4` exceeds the `1e100` magnitude bound (scaling by 4 is
exact also for the binary floating point of the source), yet `evaluate`
returns `Ok(1e100)` instead of a `NumberOutOfRange` error — intermediate
results are not bounds-checked. -/
theorem claim_C3_counterexample :
    Calculator.evaluate Calculator.new "1e100x4/4" = .ok ((10 : ℚ) ^ (100 : Nat))
    ∧ |(10 : ℚ) ^ (100 : Nat) * 4| > (10 : ℚ) ^ (100 : Nat) :=
  ⟨by decide, by decide⟩

/-- Claim C3 (amended): `evaluate` enforces the 1e100 magnitude bound on
every numeric literal (via `safe_parse_number`) and on the final result,
but not on intermediate results: every accepted literal is within the
bound, a parsed literal beyond the bound yields `NumberOutOfRange`, and
every value `evaluate` returns is within the bound. -/
theorem claim_C3_amended :
    (∀ (s : String) (q : ℚ),
        Calculator.safe_parse_number s = .ok q → |q| ≤ Calculator.BOUND)
    ∧ (∀ (s : String) (q : ℚ), parseFloat s = some q → |q| > Calculator.BOUND →
        Calculator.safe_parse_number s = .error (.numberOutOfRange s))
    ∧ (∀ (c : Calculator) (s : String) (v : ℚ),
        Calculator.evaluate c s = .ok v → |v| ≤ Calculator.BOUND) := by
  refine ⟨safe_parse_number_ok_bound, ?_, evaluate_ok_bound⟩
  intro s q hp hgt
  simp [Calculator.safe_parse_number, hp, hgt]

/-- Witness for claim C3's amended theorem at concrete inputs. -/
theorem claim_C3_witness :
    |(5 : ℚ)| ≤ Calculator.BOUND
    ∧ Calculator.safe_parse_number "1e200" = .error (.numberOutOfRange "1e200") :=
  ⟨claim_C3_amended.2.2 Calculator.new "2+3" 5 (by decide),
   claim_C3_amended.2.1 "1e200" ((10 : ℚ) ^ (200 : Nat)) (by decide) (by decide)⟩

/-- The value-stack loop splits over list append: run the first token
segment, then (unless it failed) run the second from the reached stack. -/
theorem postfixEvalSteps_append (xs ys : List Token) :
    ∀ st, Calculator.postfixEvalSteps (xs ++ ys) st =
      match Calculator.postfixEvalSteps xs st with
      | .error e => .error e
      | .ok st2 => Calculator.postfixEvalSteps ys st2 := by
  induction xs with
  | nil => intro st; simp [Calculator.postfixEvalSteps]
  | cons t xs ih =>
    intro st
    cases t with
    | number q => simp [Calculator.postfixEvalSteps, ih]
    | unaryMinus => rcases st with _ | ⟨a, st⟩ <;> simp [Calculator.postfixEvalSteps, ih]
    | plus => rcases st with _ | ⟨b, _ | ⟨a, st⟩⟩ <;> simp [Calculator.postfixEvalSteps, ih]
    | minus => rcases st with _ | ⟨b, _ | ⟨a, st⟩⟩ <;> simp [Calculator.postfixEvalSteps, ih]
    | multiply => rcases st with _ | ⟨b, _ | ⟨a, st⟩⟩ <;> simp [Calculator.postfixEvalSteps, ih]
    | divide =>
      rcases st with _ | ⟨b, _ | ⟨a, st⟩⟩ <;> simp [Calculator.postfixEvalSteps, ih] <;>
        split_ifs <;> simp [Calculator.postfixEvalSteps, ih]
    | leftParen => simp [Calculator.postfixEvalSteps]
    | rightParen => simp [Calculator.postfixEvalSteps]

/-- Claim C4: whenever a division's right operand evaluates to zero —
i.e. the postfix run reaches a `Divide` token with `0` on top of the value
stack, anywhere inside the program — the whole evaluation returns the
division-by-zero error rather than a value; in particular
`evaluate("10/0")` and `evaluate("5+10/0")` both fail with it. -/
theorem claim_C4 :
    (∀ (ts1 ts2 : List Token) (a : ℚ) (st : List ℚ),
        Calculator.postfixEvalSteps ts1 [] = .ok (0 :: a :: st) →
        Calculator.postfixEval (ts1 ++ Token.divide :: ts2) = .error "Division by zero")
    ∧ Calculator.evaluate Calculator.new "10/0" = .error "Division by zero"
    ∧ Calculator.evaluate Calculator.new "5+10/0" = .error "Division by zero" := by
  refine ⟨fun ts1 ts2 a st h => ?_, by decide, by decide⟩
  unfold Calculator.postfixEval
  rw [postfixEvalSteps_append, h]
  simp [Calculator.postfixEvalSteps, CalculatorError.toDisplay]

/-- Witness for claim C4 at a concrete input: `5 0 ÷` in postfix. -/
theorem claim_C4_witness :
    Calculator.postfixEval [Token.number 5, Token.number 0, Token.divide] =
      .error "Division by zero" :=
  claim_C4.1 [Token.number 5, Token.number 0] [] 5 [] (by decide)

/-- A string has at least as many UTF-8 bytes as characters. -/
theorem list_length_le_utf8Len (l : List Char) : l.length ≤ String.utf8Len l := by
  induction l with
  | nil => simp [String.utf8Len, String.utf8ByteSize.go]
  | cons c cs ih =>
    have hc := Char.utf8Size_pos c
    have he : String.utf8Len (c :: cs) = String.utf8Len cs + c.utf8Size := rfl
    rw [he]
    simp only [List.length_cons]
    omega

/-- Claim C7 counterexample: a string of 501 `÷` characters has at most
1000 characters, yet `evaluate` rejects it as too long, because the guard
compares the UTF-8 byte length (1002 bytes) with the ceiling. -/
theorem claim_C7_counterexample :
    (String.mk (List.replicate 501 '÷')).length = 501
    ∧ (String.mk (List.replicate 501 '÷')).length ≤ 1000
    ∧ Calculator.evaluate Calculator.new (String.mk (List.replicate 501 '÷')) =
        .error "Input too long" :=
  ⟨by decide, by decide, by decide⟩

/-- Claim C7 (amended): the guard runs before any parsing but compares
UTF-8 bytes, not characters: any input longer than 1000 characters is
rejected as too long (bytes are at least characters), any input longer
than 1000 bytes is rejected as too long even when it has at most 1000
characters, and inputs of at most 1000 bytes are never rejected for
length. -/
theorem claim_C7_amended :
    (∀ (c : Calculator) (s : String), s.utf8ByteSize > 1000 →
        Calculator.evaluate c s = .error "Input too long")
    ∧ (∀ (c : Calculator) (s : String), s.length > 1000 →
        Calculator.evaluate c s = .error "Input too long")
    ∧ (∀ s : String, s.utf8ByteSize ≤ 1000 →
        Calculator.validate_input s ≠ .error CalculatorError.inputTooLong) := by
  have hbytes : ∀ (c : Calculator) (s : String), s.utf8ByteSize > 1000 →
      Calculator.evaluate c s = .error "Input too long" := by
    intro c s hb
    simp [Calculator.evaluate, Calculator.validate_input, Calculator.MAX_INPUT_LENGTH, hb,
      CalculatorError.toDisplay]
  refine ⟨hbytes, fun c s hl => hbytes c s ?_, fun s hle => ?_⟩
  · rcases s with ⟨data⟩
    have h1 : String.length ⟨data⟩ = data.length := rfl
    have h2 := list_length_le_utf8Len data
    rw [h1] at hl
    rw [String.utf8ByteSize_mk]
    omega
  · unfold Calculator.validate_input
    rw [if_neg (by simp [Calculator.MAX_INPUT_LENGTH]; omega)]
    dsimp only
    split <;> simp

/-- Witness for claim C7's amended theorem at concrete inputs. -/
theorem claim_C7_witness :
    Calculator.evaluate Calculator.new (String.mk (List.replicate 1001 '1')) =
      .error "Input too long"
    ∧ Calculator.validate_input "5" ≠ .error CalculatorError.inputTooLong :=
  ⟨claim_C7_amended.2.1 Calculator.new (String.mk (List.replicate 1001 '1')) (by decide),
   claim_C7_amended.2.2 "5" (by decide)⟩

/-- Claim C5 counterexample: from the state with expression `"5+3"` and
display `"3"`, Percent replaces the whole expression with `"0.03"` instead
of splicing after the last separating operator (which would give
`"5+0.03"`): the code splits at the last space character, not the last
operator. -/
theorem claim_C5_counterexample :
    Calculator.handle_percentage_input
        { expression := "5+3", display := "3", new_input := true } =
      { expression := "0.03", display := "0.03", new_input := true }
    ∧ ("0.03" : String) ≠ "5+0.03" :=
  ⟨by decide, by decide⟩

/-- Claim C5 (amended): when the display parses as a number, Percent
divides it by 100 and splices the quotient back after the last *space*
character of the expression; since expressions built by the handlers
never contain spaces, for every space-free expression the whole
expression is replaced by the quotient, even when a separating operator
is present. -/
theorem claim_C5_amended :
    ∀ (c : Calculator) (v : ℚ), parseFloat c.display = some v →
      ' ' ∉ c.expression.toList →
      Calculator.handle_percentage_input c =
        { c with expression := ratToString (v / 100), display := ratToString (v / 100) } := by
  intro c v hv hs
  unfold Calculator.handle_percentage_input
  rw [hv]
  dsimp only
  have hc : c.expression.toList.contains ' ' = false := by
    simpa using hs
  rw [if_neg (by rw [hc]; simp)]

/-- Witness for claim C5's amended theorem at a concrete state. -/
theorem claim_C5_witness :
    Calculator.handle_percentage_input
        { expression := "50", display := "50", new_input := false } =
      { expression := ratToString ((50 : ℚ) / 100), display := ratToString ((50 : ℚ) / 100),
        new_input := false } :=
  claim_C5_amended { expression := "50", display := "50", new_input := false } 50
    (by decide) (by decide)

/-- Claim C6 counterexample: in the state with expression and display
`"2.5+3"` (not an error, not `new_input`, display not `"0"`), the current
operand `"3"` contains no decimal point, yet Decimal leaves the state
unchanged: the guard checks the whole display for `'.'`, not the segment
after the last separating operator. -/
theorem claim_C6_counterexample :
    Calculator.handle_decimal_input
        { expression := "2.5+3", display := "2.5+3", new_input := false } =
      { expression := "2.5+3", display := "2.5+3", new_input := false }
    ∧ ("2.5+3" : String) ≠ "2.5+3." :=
  ⟨by decide, by decide⟩

/-- Claim C6 (amended): for every state that is not an error, not in
`new_input` mode, and whose display is not `"0"`, Decimal appends `'.'`
to the expression and display exactly when the *entire display* does not
already contain a `'.'`; otherwise the state is left unchanged. -/
theorem claim_C6_amended :
    ∀ c : Calculator, c.display ≠ "Error" → c.new_input = false → c.display ≠ "0" →
      Calculator.handle_decimal_input c =
        (if strHasChar c.display '.' then c
         else { c with expression := c.expression.push '.', display := c.display.push '.' }) := by
  intro c h1 h2 h3
  unfold Calculator.handle_decimal_input
  rw [if_neg h1]
  rw [if_neg (by simp [h2])]
  rw [if_neg (by simp [h2])]
  rw [if_neg h3]
  by_cases hd : strHasChar c.display '.' = true
  · rw [if_neg (by simp [hd]), if_pos hd]
  · rw [if_pos (by simp [hd]), if_neg (by simp [hd])]

/-- Witness for claim C6's amended theorem at a concrete state. -/
theorem claim_C6_witness :
    Calculator.handle_decimal_input { expression := "5", display := "5", new_input := false } =
      { expression := "5.", display := "5.", new_input := false } := by
  have h := claim_C6_amended { expression := "5", display := "5", new_input := false }
    (by decide) rfl (by decide)
  simpa [strHasChar] using h

/-- Claim C8: for every state that is not an error state, when Equals'
evaluation of the expression fails, the error text becomes the display
verbatim and the expression resets to `"0"` (other fields unchanged). -/
theorem claim_C8 :
    ∀ (c : Calculator) (err : String), c.display ≠ "Error" →
      Calculator.evaluate c c.expression = .error err →
      Calculator.handle_equals_input c = { c with expression := "0", display := err } := by
  intro c err h1 h2
  unfold Calculator.handle_equals_input
  rw [if_neg h1, h2]

/-- Witness for claim C8 at a concrete state. -/
theorem claim_C8_witness :
    Calculator.handle_equals_input
        { expression := "10/0", display := "10/0", new_input := false } =
      { expression := "0", display := "Division by zero", new_input := false } :=
  claim_C8 { expression := "10/0", display := "10/0", new_input := false }
    "Division by zero" (by decide) (by decide)

/-- Claim C9 counterexample: `process_message` does not return a scroll
hint for every state and event — from the reachable state with expression
`"5÷3"`, the SignToggle event makes the Rust code panic (it slices the
expression at byte index `last_op_pos + 1` where `last_op_pos` is a
character index, and the index lands inside the two-byte `÷`), modelled
here by `none`. -/
theorem claim_C9_counterexample :
    CalculatorUIState.process_message
        { calculator := { expression := "5÷3", display := "5÷3", new_input := false },
          previous_display_len := 1 }
        .signTogglePressed = none := by
  decide

/-- Claim C9 (amended): whenever `process_message` returns (the sign
toggle handler can panic instead), the hint is `ScrollToEnd` exactly when
the expression's UTF-8 byte length (Rust `String::len`) grew while
handling the event, and `NoScroll` exactly otherwise. -/
theorem claim_C9_amended :
    ∀ (st : CalculatorUIState) (msg : UIMessage) (st2 : CalculatorUIState) (r : MessageResult),
      CalculatorUIState.process_message st msg = some (st2, r) →
      ((r = .scrollToEnd ↔
          st2.calculator.expression.utf8ByteSize > st.calculator.expression.utf8ByteSize)
       ∧ (r = .noScroll ↔
          ¬ st2.calculator.expression.utf8ByteSize > st.calculator.expression.utf8ByteSize)) := by
  intro st msg st2 r h
  unfold CalculatorUIState.process_message at h
  rcases hd : CalculatorUIState.dispatch st.calculator msg with _ | c
  · rw [hd] at h
    simp at h
  · rw [hd] at h
    dsimp only at h
    simp only [Option.some.injEq, Prod.mk.injEq] at h
    obtain ⟨hst, hr⟩ := h
    subst hst
    by_cases hgt : c.expression.utf8ByteSize > st.calculator.expression.utf8ByteSize
    · rw [if_pos hgt] at hr
      subst hr
      simp [hgt]
    · rw [if_neg hgt] at hr
      subst hr
      simp [hgt]

/-- Witness for claim C9's amended theorem at a concrete state and event. -/
theorem claim_C9_witness :
    ((MessageResult.scrollToEnd = MessageResult.scrollToEnd ↔
        ("53" : String).utf8ByteSize > ("5" : String).utf8ByteSize)
     ∧ (MessageResult.scrollToEnd = MessageResult.noScroll ↔
        ¬ ("53" : String).utf8ByteSize > ("5" : String).utf8ByteSize)) :=
  claim_C9_amended
    { calculator := { expression := "5", display := "5", new_input := false },
      previous_display_len := 1 }
    (.numberPressed 3)
    { calculator := { expression := "53", display := "53", new_input := false },
      previous_display_len := 1 }
    .scrollToEnd (by decide)

/-- Claim C10: evaluation is a read-only operation: the state-passing form
of the call `self.evaluate(expr)` leaves the expression, display, and
`new_input` fields unchanged, and the result does not depend on the
receiver's fields at all. -/
theorem claim_C10 :
    ∀ (c : Calculator) (expr : String),
      ((Calculator.evaluateCall c expr).1.expression = c.expression
       ∧ (Calculator.evaluateCall c expr).1.display = c.display
       ∧ (Calculator.evaluateCall c expr).1.new_input = c.new_input)
      ∧ (∀ c2 : Calculator, Calculator.evaluate c expr = Calculator.evaluate c2 expr) :=
  fun _ _ => ⟨⟨rfl, rfl, rfl⟩, fun _ => rfl⟩
